import Mathlib

/-!
Verification development for the `blocky` delta-synchronization tool
(`src/main.rs`, `src/protocol.rs`, `src/client.rs`, `src/server.rs`).

Byte buffers are modelled as `List Nat` (each element one byte), file paths
as lists of path segments (each segment a list of bytes), fallible
operations as `Except String`, and the side effects of the client
orchestrator as an explicit list of `Effect` values.

The signature / delta / apply algorithms live in the external `fast_rsync`
crate, which is not part of this repository's sources; they are modelled
from the specification (sections 4.2 to 4.4: block partitioning, weak and
truncated strong checksums, rsync-style sliding-window matching, and
instruction replay).  The SHA-256 + base64 content fingerprint (`sha2` and
`base64` crates) and the JSON body encoding (`serde_json`) are likewise
external and modelled from the specification's contracts.
-/

namespace Blocky

set_option autoImplicit false

/-! ## Bytes, hashes and block partitioning -/

/-- Full digest length, in bytes, of the modelled strong hash
(spec section 3: `strongHashSize` must be at most the full digest length). -/
def digestLength : Nat := 32

/-- Modelled from the spec: the fast "Adler-style" rolling checksum of the
`fast_rsync` crate (spec section 4.2).  Any deterministic checksum with
values below `2 ^ 32` realizes the contract; correctness of the delta never
relies on its collision behaviour (that is the `NoCollision` hypothesis). -/
def weakHash (w : List Nat) : Nat :=
  w.foldl (fun h b => (h * 65599 + b + 1) % (2 ^ 32)) 0

/-- Modelled from the spec: the cryptographic block checksum of the
`fast_rsync` crate truncated to `shs` bytes (spec section 4.2). -/
def strongHash (shs : Nat) (w : List Nat) : List Nat :=
  (List.range shs).map
    (fun j => (w.foldl (fun h b => (h * 131 + b + 1) % (2 ^ 64)) (j + 7)) % 256)

/-- Modelled from the spec: the whole-file SHA-256 content fingerprint,
base64 encoded (`sha2` + `base64` crates; spec section 4.1).  Only equality
of fingerprints matters to the orchestrator, so any deterministic digest
realizes the contract. -/
def hashB64 (data : List Nat) : List Nat :=
  (List.range 32).map
    (fun j => (data.foldl (fun h b => (h * 257 + b + 3) % (2 ^ 64)) (j + 11)) % 256)

/-- Number of blocks of a buffer of length `len` under block size `bs`:
`ceil (len / bs)` (spec section 4.2: the last block may be shorter). -/
def numBlocks (len bs : Nat) : Nat := (len + bs - 1) / bs

/-- Block `i` of buffer `A` under block size `bs`: bytes
`[i * bs, min ((i+1) * bs, len A))` (spec sections 3 and 4.2). -/
def blockOf (A : List Nat) (bs i : Nat) : List Nat :=
  (A.drop (i * bs)).take bs

/-! ## Signature (spec sections 3 and 4.2) -/

/-- Per-block checksum pair (spec section 3, `BlockChecksum`). -/
structure BlockSum where
  weak : Nat
  strong : List Nat
deriving DecidableEq, Repr

/-- Block signature of a byte buffer (spec section 3, `Signature`):
self-describing block size, strong-hash size and the ordered block table. -/
structure Signature where
  block_size : Nat
  crypto_hash_size : Nat
  blocks : List BlockSum
deriving DecidableEq, Repr

/-- Modelled from the spec: `fast_rsync::Signature::calculate` (spec
section 4.2): partition the buffer into `bs`-sized blocks (last one
shorter) and record the weak and truncated strong checksum of each. -/
def buildSignature (A : List Nat) (bs shs : Nat) : Signature :=
  { block_size := bs
    crypto_hash_size := shs
    blocks :=
      (List.range (numBlocks A.length bs)).map
        (fun i => { weak := weakHash (blockOf A bs i)
                    strong := strongHash shs (blockOf A bs i) }) }

/-- Modelled from the spec: `fast_rsync::Signature::index` builds the
weak-checksum lookup table (spec section 4.3 step 1).  The table's buckets
list candidates in ascending block order, which the matcher below realizes
by a first-match scan, so indexing preserves the abstract signature
value. -/
def index (s : Signature) : Signature := s

/-! ## Signature wire encoding (spec sections 4.2 and 6)

Modelled from the spec: the encoding is self-describing (block size,
strong-hash size and block count travel with the signature); the concrete
layout of the `fast_rsync` crate is not part of this repository, so a
little-endian fixed-width layout is chosen here.  `deserializeSig` fails
with a decode error on truncated input, on a header with out-of-range
parameters and on an inconsistent block table. -/

/-- Four little-endian base-256 digits of `n`. -/
def encU32 (n : Nat) : List Nat :=
  [n % 256, n / 256 % 256, n / 256 ^ 2 % 256, n / 256 ^ 3 % 256]

/-- Value of a little-endian base-256 digit list. -/
def decU32 (l : List Nat) : Nat :=
  l.foldr (fun b acc => b + 256 * acc) 0

/-- Serialize a signature: header (block size, strong-hash size, block
count) followed by the block table, each entry a weak checksum and `shs`
strong-hash bytes. -/
def serializeSig (s : Signature) : List Nat :=
  encU32 s.block_size ++ encU32 s.crypto_hash_size ++ encU32 s.blocks.length ++
    s.blocks.flatMap (fun b => encU32 b.weak ++ b.strong)

/-- Parse `count` block-table entries of `4 + shs` bytes each; any leftover
or missing bytes are an inconsistent block table. -/
def parseBlocks (shs : Nat) : Nat → List Nat → Except String (List BlockSum)
  | 0, rest => if rest.isEmpty then .ok [] else .error "DecodeError: inconsistent block table"
  | k + 1, w0 :: w1 :: w2 :: w3 :: rest =>
      if shs ≤ rest.length then
        match parseBlocks shs k (rest.drop shs) with
        | .ok tl => .ok ({ weak := decU32 [w0, w1, w2, w3], strong := rest.take shs } :: tl)
        | .error e => .error e
      else .error "DecodeError: inconsistent block table"
  | _ + 1, _ => .error "DecodeError: inconsistent block table"

/-- Modelled from the spec: `fast_rsync::Signature::deserialize`; fails
with a decode error on malformed or corrupt input, never panics. -/
def deserializeSig (l : List Nat) : Except String Signature :=
  match l with
  | a0 :: a1 :: a2 :: a3 :: b0 :: b1 :: b2 :: b3 :: c0 :: c1 :: c2 :: c3 :: rest =>
      let bs := decU32 [a0, a1, a2, a3]
      let shs := decU32 [b0, b1, b2, b3]
      let count := decU32 [c0, c1, c2, c3]
      if 0 < bs ∧ 0 < shs ∧ shs ≤ digestLength then
        match parseBlocks shs count rest with
        | .ok blocks => .ok { block_size := bs, crypto_hash_size := shs, blocks := blocks }
        | .error e => .error e
      else .error "DecodeError: invalid header"
  | _ => .error "DecodeError: truncated header"

/-! ## Delta instructions, encoder and applier (spec sections 3, 4.3, 4.4) -/

/-- Delta stream unit (spec section 3, `Instruction`). -/
inductive Instruction where
  | copy (sourceOffset length : Nat)
  | insert (bytes : List Nat)
deriving DecidableEq, Repr

/-- Flush the pending literal bytes as a single `Insert`
(spec section 4.3 steps 3 and 5). -/
def flushPending (pending : List Nat) : List Instruction :=
  if pending.isEmpty then [] else [.insert pending]

/-- First block of the table whose weak and strong checksums both equal
those of window `w` (spec section 4.3 tie-break: lowest block index
wins). -/
def findMatchAux (shs : Nat) (w : List Nat) : List BlockSum → Nat → Option Nat
  | [], _ => none
  | b :: bl, j =>
      if b.weak = weakHash w ∧ b.strong = strongHash shs w then some j
      else findMatchAux shs w bl (j + 1)

/-- Sliding-window scan of the delta encoder (spec section 4.3 steps 2-5),
with explicit fuel (the scan advances by at least one byte per step, so
`B.length` fuel suffices from offset 0).  On a checksum match: flush the
pending literals, emit a `Copy` of the matched window and continue past it;
otherwise accumulate one literal byte and slide by one. -/
def deltaGo (sig : Signature) (B : List Nat) : Nat → Nat → List Nat → List Instruction
  | 0, _, pending => flushPending pending
  | fuel + 1, p, pending =>
      if h : p < B.length then
        match findMatchAux sig.crypto_hash_size
            ((B.drop p).take (min sig.block_size (B.length - p))) sig.blocks 0 with
        | some i =>
            flushPending pending ++
              .copy (i * sig.block_size) (min sig.block_size (B.length - p)) ::
                deltaGo sig B fuel (p + min sig.block_size (B.length - p)) []
        | none => deltaGo sig B fuel (p + 1) (pending ++ [B.get ⟨p, h⟩])
      else flushPending pending

/-- Modelled from the spec: `fast_rsync::diff` (spec section 4.3): the
rsync-style delta of target `B` against a signature of the other side's
bytes. -/
def computeDelta (sig : Signature) (B : List Nat) : List Instruction :=
  deltaGo sig B B.length 0 []

/-- Modelled from the spec: `fast_rsync::apply` (spec section 4.4): replay
the instructions in order; `Copy` takes bytes from the original buffer,
failing with a range error when the range exceeds the buffer, `Insert`
appends its literal bytes. -/
def applyPatch (orig : List Nat) : List Instruction → Except String (List Nat)
  | [] => .ok []
  | .copy off len :: rest =>
      if off + len ≤ orig.length then
        match applyPatch orig rest with
        | .ok tl => .ok ((orig.drop off).take len ++ tl)
        | .error e => .error e
      else .error "RangeError: copy range out of bounds"
  | .insert bytes :: rest =>
      match applyPatch orig rest with
      | .ok tl => .ok (bytes ++ tl)
      | .error e => .error e

/-- Absence of checksum collisions between the windows of `B` actually
examined by the sliding scan and the signature blocks of `A`: whenever both
checksums of a window agree with those of a block, the bytes agree.  With
the real cryptographic checksums this holds with overwhelming probability
(spec section 4.1); it is the hypothesis under which the spec's round-trip
property is exact. -/
def NoCollision (A B : List Nat) (bs shs : Nat) : Prop :=
  ∀ p, p < B.length → ∀ i, i < numBlocks A.length bs →
    weakHash ((B.drop p).take (min bs (B.length - p))) = weakHash (blockOf A bs i) →
    strongHash shs ((B.drop p).take (min bs (B.length - p))) = strongHash shs (blockOf A bs i) →
    (B.drop p).take (min bs (B.length - p)) = blockOf A bs i

instance (A B : List Nat) (bs shs : Nat) : Decidable (NoCollision A B bs shs) := by
  unfold NoCollision
  exact inferInstance

/-- `Client::make_signature` (`src/client.rs` lines 162-174):
`Signature::calculate` with `block_size = 4096`, `crypto_hash_size = 8`,
then `serialize`. -/
def make_signature (data : List Nat) : List Nat :=
  serializeSig (buildSignature data 4096 8)

/-! ## Paths and the wire protocol (`src/protocol.rs`) -/

/-- A relative file path, as a list of path segments (each segment a list
of bytes); `PathBuf::join` of a relative path appends its segments. -/
abbrev Path := List (List Nat)

/-- The `..` parent-directory segment (bytes of ".."). -/
def dotdot : List Nat := [46, 46]

/-- A path containing a parent-directory traversal segment
(spec section 6: such paths must be rejected before joining). -/
def hasTraversal (p : Path) : Prop := dotdot ∈ p

instance (p : Path) : Decidable (hasTraversal p) := by
  unfold hasTraversal
  exact inferInstance

/-- `protocol.rs` `ListingEntry`: relative path plus base64 content hash. -/
structure ListingEntry where
  path : Path
  hash : List Nat
deriving DecidableEq, Repr

/-- `protocol.rs` `Listing`: the server's file list. -/
structure Listing where
  files : List ListingEntry
deriving DecidableEq, Repr

/-- `protocol.rs` `PatchRequest`: relative path plus base64-encoded
signature string (bytes of the string). -/
structure PatchRequest where
  file : Path
  sig : List Nat
deriving DecidableEq, Repr

/-! ## base64 (external `base64` crate, modelled from its contract) -/

/-- Standard-alphabet value of one base64 character code, `none` for a
character outside the alphabet. -/
def b64val (c : Nat) : Option Nat :=
  if 65 ≤ c ∧ c ≤ 90 then some (c - 65)
  else if 97 ≤ c ∧ c ≤ 122 then some (c - 97 + 26)
  else if 48 ≤ c ∧ c ≤ 57 then some (c - 48 + 52)
  else if c = 43 then some 62
  else if c = 47 then some 63
  else none

/-- Character code of one 6-bit value under the standard alphabet. -/
def b64chr (v : Nat) : Nat :=
  if v < 26 then 65 + v
  else if v < 52 then 97 + (v - 26)
  else if v < 62 then 48 + (v - 52)
  else if v = 62 then 43 else 47

/-- Modelled from the spec: `base64::encode` (three bytes become four
characters, with `=` padding). -/
def b64encode : List Nat → List Nat
  | [] => []
  | [a] => [b64chr (a / 4), b64chr (a % 4 * 16), 61, 61]
  | [a, b] => [b64chr (a / 4), b64chr (a % 4 * 16 + b / 16), b64chr (b % 16 * 4), 61]
  | a :: b :: c :: rest =>
      b64chr (a / 4) :: b64chr (a % 4 * 16 + b / 16) ::
        b64chr (b % 16 * 4 + c / 64) :: b64chr (c % 64) :: b64encode rest

/-- Reassemble bytes from 6-bit values, four at a time (a trailing single
value cannot encode a byte and is invalid). -/
def b64groups : List Nat → Except String (List Nat)
  | [] => .ok []
  | [_] => .error "DecodeError: invalid base64 length"
  | [a, b] => .ok [a * 4 + b / 16]
  | [a, b, c] => .ok [a * 4 + b / 16, b % 16 * 16 + c / 4]
  | a :: b :: c :: d :: rest =>
      match b64groups rest with
      | .ok tl => .ok ((a * 4 + b / 16) :: (b % 16 * 16 + c / 4) :: (c % 4 * 64 + d) :: tl)
      | .error e => .error e

/-- Modelled from the spec: `base64::decode`; fails on characters outside
the alphabet and on an invalid length, never panics. -/
def b64decode (l : List Nat) : Except String (List Nat) :=
  match ((l.reverse.dropWhile (fun c => c = 61)).reverse).mapM b64val with
  | some vals => b64groups vals
  | none => .error "DecodeError: invalid base64 character"

/-! ## PatchRequest body encoding (external `serde_json`, modelled from the
spec's wire contract, section 6: a self-describing encoding of
`(file, sig)` whose parser validates the body and fails on malformed
input) -/

/-- Encode one length-prefixed byte string. -/
def encBytes (s : List Nat) : List Nat := encU32 s.length ++ s

/-- Serialize a `PatchRequest` (`serde_json::to_vec_pretty` in
`src/client.rs` line 148, modelled as segment-count, length-prefixed
segments, then the length-prefixed signature string). -/
def encPatchRequest (r : PatchRequest) : List Nat :=
  encU32 r.file.length ++ r.file.flatMap encBytes ++ encBytes r.sig

/-- Parse `k` length-prefixed path segments, returning them with the
remaining input. -/
def parseSegs : Nat → List Nat → Except String (Path × List Nat)
  | 0, rest => .ok ([], rest)
  | k + 1, n0 :: n1 :: n2 :: n3 :: rest =>
      let n := decU32 [n0, n1, n2, n3]
      if n ≤ rest.length then
        match parseSegs k (rest.drop n) with
        | .ok (ss, r) => .ok (rest.take n :: ss, r)
        | .error e => .error e
      else .error "DecodeError: truncated segment"
  | _ + 1, _ => .error "DecodeError: truncated segment"

/-- Modelled from the spec: `serde_json::from_slice::<PatchRequest>`
(`src/server.rs` line 153); fails on malformed bodies. -/
def parsePatchRequest (body : List Nat) : Except String PatchRequest :=
  match body with
  | n0 :: n1 :: n2 :: n3 :: rest =>
      match parseSegs (decU32 [n0, n1, n2, n3]) rest with
      | .ok (segs, s0 :: s1 :: s2 :: s3 :: rest2) =>
          let n := decU32 [s0, s1, s2, s3]
          if n = rest2.length then .ok { file := segs, sig := rest2.take n }
          else .error "DecodeError: truncated signature string"
      | .ok (_, _) => .error "DecodeError: truncated signature string"
      | .error e => .error e
  | _ => .error "DecodeError: truncated body"

/-! ## Client orchestrator (`src/client.rs`) -/

/-- The client's local filesystem: an association list from absolute-ish
paths (working-directory-joined) to file bytes; absent key means the file
does not exist. -/
abbrev ClientFs := List (Path × List Nat)

/-- Observable side effects of one `update_file` run, in order:
the `/patch` network call (`fetch_patch`), `create_dir_all`, and the file
write. -/
inductive Effect where
  | netPatch (file : Path) (sig : List Nat)
  | fsCreateDirAll (path : Path)
  | fsWrite (path : Path) (bytes : List Nat)
deriving DecidableEq, Repr

/-- `FilePatchStats` (`src/client.rs` lines 17-22). -/
structure FilePatchStats where
  file : Path
  original_size : Nat
  patch_size : Nat
  new_size : Nat
deriving DecidableEq, Repr

/-- `std::fs::read(&path).unwrap_or(Vec::new())` (`src/client.rs` line 98):
a missing file reads as empty bytes. -/
def readLocal (fs : ClientFs) (path : Path) : List Nat :=
  (fs.lookup path).getD []

/-- Steps of `Client::update_file` after the local bytes are in hand
(`src/client.rs` lines 100-138): hash and compare, short-circuit when
equal; otherwise build and send the signature, apply the fetched patch and
write the output.  `net` is the outcome of the `/patch` request
(`fetch_patch`), whose response body is the instruction stream; the first
component is the returned `Result`, the second the ordered effect
trace. -/
def update_file_data (data : List Nat) (net : Except String (List Instruction))
    (path : Path) (file : Path) (hash : List Nat) :
    Except String (Option FilePatchStats) × List Effect :=
  if hashB64 data = hash then (.ok none, [])
  else
    let sigb := make_signature data
    match net with
    | .error e => (.error e, [.netPatch file (b64encode sigb)])
    | .ok patch =>
        match applyPatch data patch with
        | .error e => (.error e, [.netPatch file (b64encode sigb)])
        | .ok output =>
            (.ok (some { file := file, original_size := data.length,
                         patch_size := patch.length, new_size := output.length }),
             [.netPatch file (b64encode sigb),
              .fsCreateDirAll path.dropLast, .fsWrite path output])

/-- `Client::update_file` (`src/client.rs` lines 90-139): join the listing
path to the working directory (no traversal validation), read the local
bytes treating a missing file as empty, then run the hash-compare /
signature / patch / apply / write sequence. -/
def update_file (fs : ClientFs) (net : Except String (List Instruction))
    (workdir : Path) (file : Path) (hash : List Nat) :
    Except String (Option FilePatchStats) × List Effect :=
  update_file_data (readLocal fs (workdir ++ file)) net (workdir ++ file) file hash

/-- `Client::update` (`src/client.rs` lines 57-72): iterate over the
listing, calling `update_file` for each entry; the `?` operator propagates
the first failure.  `net` gives the `/patch` outcome per file.  Returns the
run's `Result` and the paths of the files actually processed. -/
def clientUpdate (fs : ClientFs) (net : Path → Except String (List Instruction))
    (workdir : Path) : List ListingEntry → Except String Unit × List Path
  | [] => (.ok (), [])
  | e :: rest =>
      match (update_file fs (net e.path) workdir e.path e.hash).1 with
      | .error err => (.error err, [e.path])
      | .ok _ =>
          let r := clientUpdate fs net workdir rest
          (r.1, e.path :: r.2)

/-! ## Server (`src/server.rs`) -/

/-- The server's filesystem as seen from its current directory: paths are
relative to it, so a `..` segment escapes the served tree. -/
abbrev ServerFs := List (Path × List Nat)

/-- One entry yielded by the `walkdir` traversal in
`Server::list_entries` (`src/server.rs` lines 203-215); entries whose
`walkdir` access failed are already skipped by `filter_map(|e| e.ok())`.
`meta` is the result of `p.metadata()`: `none` when the metadata call
fails (for example a dangling symlink), otherwise `some is_file`.
`content` is the result of `std::fs::read`: `none` when the bytes cannot
be read. -/
structure FsEntry where
  path : Path
  meta : Option Bool
  content : Option (List Nat)
deriving DecidableEq, Repr

/-- `Server::list_entries` (`src/server.rs` lines 203-215): keep the paths
of regular files.  `p.metadata().unwrap()` panics when the metadata call
fails; the panic is modelled as an `Except.error`. -/
def list_entries : List FsEntry → Except String (List Path)
  | [] => .ok []
  | e :: rest =>
      match e.meta with
      | none => .error "panic: called unwrap on an Err value (metadata)"
      | some isFile =>
          match list_entries rest with
          | .ok ps => .ok (if isFile then e.path :: ps else ps)
          | .error err => .error err

/-- `std::fs::read` inside `Server::list_entry_for_file`
(`src/server.rs` line 189): look the path up in the walked tree. -/
def readEntry (entries : List FsEntry) (p : Path) : Option (List Nat) :=
  match entries.find? (fun e => e.path = p) with
  | some e => e.content
  | none => none

/-- `Server::list_entry_for_file` (`src/server.rs` lines 187-201): read the
bytes and build the entry; fails when the bytes cannot be read. -/
def list_entry_for_file (entries : List FsEntry) (p : Path) : Option ListingEntry :=
  (readEntry entries p).map (fun d => { path := p, hash := hashB64 d })

/-- `Server::load_listing` (`src/server.rs` lines 79-93): walk the tree,
then keep an entry per file whose bytes could be read
(`filter_map(|path| Self::list_entry_for_file(&path).ok())`). -/
def load_listing (entries : List FsEntry) : Except String Listing :=
  match list_entries entries with
  | .ok ps => .ok { files := ps.filterMap (list_entry_for_file entries) }
  | .error e => .error e

/-- `Server::make_patch` (`src/server.rs` lines 217-223): read the file at
the request's path (no traversal validation), deserialize and index the
signature, and diff the file against it. -/
def make_patch (fs : ServerFs) (file : Path) (sigb : List Nat) :
    Except String (List Instruction) :=
  match fs.lookup file with
  | none => .error "FilesystemError: could not read file"
  | some data =>
      match deserializeSig sigb with
      | .ok sig => .ok (computeDelta (index sig) data)
      | .error e => .error e

/-- HTTP method of a request (`hyper::Method`); the router only
distinguishes `GET`, `POST` and everything else. -/
inductive Method where
  | get
  | post
  | other
deriving DecidableEq, Repr

/-- An incoming HTTP request: method, URI path (bytes) and body. -/
structure Request where
  method : Method
  path : List Nat
  body : List Nat
deriving DecidableEq, Repr

/-- Response bodies: plain text, a serialized listing (`route_list`), or
the raw instruction stream (`route_patch`). -/
inductive RespBody where
  | text (s : String)
  | listingB (l : Listing)
  | patchB (p : List Instruction)
deriving DecidableEq, Repr

/-- An HTTP response: status code and body. -/
structure Response where
  status : Nat
  body : RespBody
deriving DecidableEq, Repr

/-- URI path "/" as bytes. -/
def rootPath : List Nat := [47]

/-- URI path "/list" as bytes. -/
def listPath : List Nat := [47, 108, 105, 115, 116]

/-- URI path "/patch" as bytes. -/
def patchPath : List Nat := [47, 112, 97, 116, 99, 104]

/-- `Server::route_home` (`src/server.rs` lines 121-131). -/
def route_home : Except String Response := .ok { status := 200, body := .text "Hello there" }

/-- `Server::route_list` (`src/server.rs` lines 133-145): serialize the
cached listing. -/
def route_list (listing : Listing) : Except String Response :=
  .ok { status := 200, body := .listingB listing }

/-- `Server::route_notfound` (`src/server.rs` lines 175-185). -/
def route_notfound : Except String Response :=
  .ok { status := 404, body := .text "Not found." }

/-- `Server::route_patch` (`src/server.rs` lines 147-173): deserialize the
body, take the path from it unvalidated, base64-decode the signature,
build the patch and respond with it; every failure propagates as an
error. -/
def route_patch (fs : ServerFs) (req : Request) : Except String Response :=
  match parsePatchRequest req.body with
  | .error e => .error e
  | .ok patch_req =>
      match b64decode patch_req.sig with
      | .error e => .error e
      | .ok sigb =>
          match make_patch fs patch_req.file sigb with
          | .error e => .error e
          | .ok patch => .ok { status := 200, body := .patchB patch }

/-- `Server::router` (`src/server.rs` lines 112-119): dispatch on method
and URI path, defaulting to the 404 route. -/
def router (fs : ServerFs) (listing : Listing) (req : Request) : Except String Response :=
  match req.method with
  | .get =>
      if req.path = rootPath then route_home
      else if req.path = listPath then route_list listing
      else route_notfound
  | .post =>
      if req.path = patchPath then route_patch fs req
      else route_notfound
  | .other => route_notfound

/-- Whether `(method, path)` matches one of the three routed pairs. -/
def knownRoute (m : Method) (p : List Nat) : Prop :=
  (m = .get ∧ (p = rootPath ∨ p = listPath)) ∨ (m = .post ∧ p = patchPath)

instance (m : Method) (p : List Nat) : Decidable (knownRoute m p) := by
  unfold knownRoute
  exact inferInstance

/-- `Server::handler` (`src/server.rs` lines 95-110): run the router and
convert any error into a 500 response carrying the error message; the
handler itself always returns a response (the source's `Result` is always
`Ok`). -/
def handler (fs : ServerFs) (listing : Listing) (req : Request) : Response :=
  match router fs listing req with
  | .ok resp => resp
  | .error e => { status := 500, body := .text ("Error: " ++ e) }

end Blocky

deriving instance DecidableEq for Except

namespace Blocky

/-! ## Helper lemmas -/

theorem weakHash_lt (w : List Nat) : weakHash w < 2 ^ 32 := by
  have go : ∀ (l : List Nat) (a : Nat), a < 2 ^ 32 →
      l.foldl (fun h b => (h * 65599 + b + 1) % (2 ^ 32)) a < 2 ^ 32 := by
    intro l
    induction l with
    | nil => intro a ha; simpa using ha
    | cons b l ih =>
        intro a _
        exact ih _ (Nat.mod_lt _ (by norm_num))
  exact go w 0 (by norm_num)

theorem strongHash_length (shs : Nat) (w : List Nat) : (strongHash shs w).length = shs := by
  simp [strongHash]

theorem decU32_digits (n : Nat) (h : n < 2 ^ 32) :
    decU32 [n % 256, n / 256 % 256, n / 256 ^ 2 % 256, n / 256 ^ 3 % 256] = n := by
  simp only [decU32, List.foldr_cons, List.foldr_nil]
  omega

theorem numBlocks_le (n bs : Nat) (hbs : 0 < bs) : numBlocks n bs ≤ n := by
  unfold numBlocks
  rw [Nat.div_le_iff_le_mul_add_pred hbs]
  have h := Nat.le_mul_of_pos_left n hbs
  omega

/-! ## C4, C5, C8: the per-file client orchestrator -/

/-- C4: when the hash of the client's current local bytes equals the
listing entry's hash, `update_file` returns `Ok(None)` with an empty
effect trace: no network call, no directory creation, no write. -/
theorem update_file_noop (fs : ClientFs) (net : Except String (List Instruction))
    (workdir file : Path) (hash : List Nat)
    (h : hashB64 (readLocal fs (workdir ++ file)) = hash) :
    update_file fs net workdir file hash = (.ok none, []) := by
  simp [update_file, update_file_data, h]

theorem update_file_noop_witness :
    hashB64 (readLocal [([[97]], [1, 2])] ([] ++ [[97]])) = hashB64 [1, 2] ∧
    update_file [([[97]], [1, 2])] (.error "net down") [] [[97]] (hashB64 [1, 2]) =
      (.ok none, []) :=
  ⟨by decide, update_file_noop _ _ _ _ _ (by decide)⟩

/-- C5: when applying the fetched patch fails (for example an
out-of-bounds `Copy`), `update_file` returns that error after only the
network effect: no `fsWrite` occurs, the local file keeps its bytes. -/
theorem update_file_apply_error (fs : ClientFs) (workdir file : Path) (hash : List Nat)
    (patch : List Instruction) (e : String)
    (hne : hashB64 (readLocal fs (workdir ++ file)) ≠ hash)
    (happ : applyPatch (readLocal fs (workdir ++ file)) patch = .error e) :
    update_file fs (.ok patch) workdir file hash =
      (.error e,
        [Effect.netPatch file (b64encode (make_signature (readLocal fs (workdir ++ file))))]) ∧
    ∀ p b, Effect.fsWrite p b ∉ (update_file fs (.ok patch) workdir file hash).2 := by
  refine ⟨?_, ?_⟩ <;> simp [update_file, update_file_data, hne, happ]

theorem update_file_apply_error_witness :
    hashB64 (readLocal [] ([] ++ [[97]])) ≠ [0] ∧
    applyPatch (readLocal [] ([] ++ [[97]])) [.copy 5 3] =
      .error "RangeError: copy range out of bounds" ∧
    update_file [] (.ok [.copy 5 3]) [] [[97]] [0] =
      (.error "RangeError: copy range out of bounds",
        [Effect.netPatch [[97]] (b64encode (make_signature []))]) :=
  ⟨by decide, by decide,
    (update_file_apply_error [] [] [[97]] [0] [.copy 5 3] _ (by decide) (by decide)).1⟩

/-- C8: when the local file for a listing entry does not exist, the
client proceeds exactly as if the file's content were the empty byte
buffer (hashing and signing empty bytes) instead of failing. -/
theorem update_file_missing_reads_empty (fs : ClientFs)
    (net : Except String (List Instruction)) (workdir file : Path) (hash : List Nat)
    (h : fs.lookup (workdir ++ file) = none) :
    update_file fs net workdir file hash =
      update_file_data [] net (workdir ++ file) file hash := by
  simp [update_file, readLocal, h]

theorem update_file_missing_reads_empty_witness :
    List.lookup ([] ++ [[97]]) ([] : ClientFs) = none ∧
    update_file [] (.ok []) [] [[97]] [0] = update_file_data [] (.ok []) ([] ++ [[97]]) [[97]] [0] :=
  ⟨by decide, update_file_missing_reads_empty [] (.ok []) [] [[97]] [0] (by decide)⟩

/-! ## C3: the whole-run orchestrator -/

/-- C3 counterexample: with two listing entries where the first file's
patch fetch fails, `Client::update` propagates the error via `?` and never
processes the second file — the run aborts instead of continuing. -/
theorem clientUpdate_abort_cex :
    clientUpdate [] (fun _ => .error "TransportError") []
        [{ path := [[97]], hash := [0] }, { path := [[98]], hash := hashB64 [] }] =
      (.error "TransportError", [[[97]]]) ∧
    ([[98]] : Path) ∉
      (clientUpdate [] (fun _ => .error "TransportError") []
        [{ path := [[97]], hash := [0] }, { path := [[98]], hash := hashB64 [] }]).2 := by
  constructor
  · rfl
  · decide

/-- C3 amended: a failure while synchronizing one file aborts the whole
sync run: entries before the first failing one are processed, the failing
entry's error is propagated as the run's result, and the entries after it
are never processed. -/
theorem clientUpdate_aborts_on_first_failure (fs : ClientFs)
    (net : Path → Except String (List Instruction)) (workdir : Path)
    (pre : List ListingEntry) (e : ListingEntry) (rest : List ListingEntry) (err : String)
    (hpre : ∀ x ∈ pre, ((update_file fs (net x.path) workdir x.path x.hash).1).isOk)
    (hfail : (update_file fs (net e.path) workdir e.path e.hash).1 = .error err) :
    clientUpdate fs net workdir (pre ++ e :: rest) =
      (.error err, pre.map ListingEntry.path ++ [e.path]) := by
  induction pre with
  | nil =>
      simp only [List.nil_append, List.map_nil]
      rw [clientUpdate, hfail]
  | cons x pre ih =>
      have hx := hpre x (by simp)
      have hpre' : ∀ y ∈ pre, ((update_file fs (net y.path) workdir y.path y.hash).1).isOk :=
        fun y hy => hpre y (by simp [hy])
      simp only [List.cons_append, List.map_cons]
      rw [clientUpdate]
      cases hres : (update_file fs (net x.path) workdir x.path x.hash).1 with
      | error e2 => rw [hres] at hx; simp [Except.isOk, Except.toBool] at hx
      | ok v => simp only [ih hpre', List.cons_append]

theorem clientUpdate_aborts_on_first_failure_witness :
    ((update_file [] (.error "TransportError") [] [[97]] [0]).1) = .error "TransportError" ∧
    clientUpdate [] (fun _ => .error "TransportError") []
        ([] ++ { path := [[97]], hash := [0] } ::
          [{ path := [[98]], hash := hashB64 [] }]) =
      (.error "TransportError", List.map ListingEntry.path [] ++ [[[97]]]) :=
  ⟨by decide,
    clientUpdate_aborts_on_first_failure [] (fun _ => .error "TransportError") []
      [] { path := [[97]], hash := [0] } [{ path := [[98]], hash := hashB64 [] }]
      "TransportError" (by simp) (by decide)⟩

/-! ## C2: path traversal -/

/-- C2 counterexample: a `PatchRequest` whose relative path contains a
`..` segment is not rejected: the server parses it, reads the file at the
traversal path and answers 200 with a patch for it. -/
theorem route_patch_traversal_cex :
    hasTraversal [dotdot, [115]] ∧
    route_patch [([dotdot, [115]], [7])]
        { method := .post, path := patchPath,
          body := encPatchRequest
            { file := [dotdot, [115]], sig := b64encode (make_signature []) } } =
      .ok { status := 200, body := .patchB [.insert [7]] } := by
  constructor
  · decide
  · decide

/-- C2 amended: neither side validates wire paths against `..` traversal
segments before touching the filesystem: the server's `make_patch` reads
the file at the request's path and computes the delta even when the path
contains `..`, and the client joins the listing path to its working
directory and proceeds with the joined path unconditionally. -/
theorem traversal_paths_not_validated (fs : ServerFs) (file : Path) (sigb : List Nat)
    (data : List Nat) (sig : Signature) (cfs : ClientFs)
    (net : Except String (List Instruction)) (workdir : Path) (hash : List Nat)
    (_htrav : hasTraversal file) (hread : fs.lookup file = some data)
    (hsig : deserializeSig sigb = .ok sig) :
    make_patch fs file sigb = .ok (computeDelta (index sig) data) ∧
    update_file cfs net workdir file hash =
      update_file_data (readLocal cfs (workdir ++ file)) net (workdir ++ file) file hash := by
  refine ⟨?_, rfl⟩
  simp [make_patch, hread, hsig]

theorem traversal_paths_not_validated_witness :
    hasTraversal [dotdot, [115]] ∧
    make_patch [([dotdot, [115]], [7])] [dotdot, [115]] (make_signature []) =
      .ok (computeDelta (index (buildSignature [] 4096 8)) [7]) :=
  ⟨by decide,
    (traversal_paths_not_validated [([dotdot, [115]], [7])] [dotdot, [115]]
        (make_signature []) [7] (buildSignature [] 4096 8) [] (.ok []) [] []
        (by decide) (by decide) (by decide)).1⟩

/-! ## C6: listing construction -/

/-- C6: the listing walk skips a regular file whose bytes cannot be read
and still lists the remaining readable files, but an entry whose metadata
cannot be read (for example a dangling symlink) hits
`p.metadata().unwrap()` in `list_entries` and panics the whole listing
construction instead of being skipped. -/
theorem load_listing_metadata_panic :
    load_listing
        [{ path := [[97]], meta := some true, content := some [1] },
         { path := [[98]], meta := none, content := none }] =
      .error "panic: called unwrap on an Err value (metadata)" ∧
    load_listing
        [{ path := [[97]], meta := some true, content := some [1] },
         { path := [[99]], meta := some true, content := none }] =
      .ok { files := [{ path := [[97]], hash := hashB64 [1] }] } := by
  constructor
  · rfl
  · decide

/-! ## C10: the request handler -/

/-- C10: the handler always produces a response: an unknown method/path
pair is answered with the 404 route's response, and any error raised while
routing (body parsing, signature decoding, file read) is converted into a
500 response carrying the error message. -/
theorem handler_total (fs : ServerFs) (listing : Listing) (req : Request) :
    (¬ knownRoute req.method req.path →
        handler fs listing req = { status := 404, body := .text "Not found." }) ∧
    (∀ e, router fs listing req = .error e →
        handler fs listing req = { status := 500, body := .text ("Error: " ++ e) }) := by
  constructor
  · intro h
    rcases req with ⟨m, p, b⟩
    cases m with
    | get =>
        by_cases h1 : p = rootPath
        · exact absurd (show knownRoute Method.get p from Or.inl ⟨rfl, Or.inl h1⟩) h
        · by_cases h2 : p = listPath
          · exact absurd (show knownRoute Method.get p from Or.inl ⟨rfl, Or.inr h2⟩) h
          · simp [handler, router, h1, h2, route_notfound]
    | post =>
        by_cases h1 : p = patchPath
        · exact absurd (show knownRoute Method.post p from Or.inr ⟨rfl, h1⟩) h
        · simp [handler, router, h1, route_notfound]
    | other => simp [handler, router, route_notfound]
  · intro e he
    simp [handler, he]

theorem handler_total_witness :
    ¬ knownRoute Method.get [47, 120] ∧
    handler [] { files := [] } { method := .get, path := [47, 120], body := [] } =
      { status := 404, body := .text "Not found." } :=
  ⟨by decide, (handler_total [] { files := [] } _).1 (by decide)⟩

/-! ## C7: adversarial signatures -/

/-- C7: a malformed or corrupt encoded signature — a string with invalid
base64, or signature bytes with a truncated header or an inconsistent
block table — makes the patch route fail with a decode error for that
request only: the handler answers 500 for it (and, the server being
stateless, other requests are untouched); every decode path is a total
function, so no panic or out-of-bounds read occurs. -/
theorem sig_decode_error_isolated (fs : ServerFs) (listing : Listing) (req : Request)
    (patch_req : PatchRequest) (e : String)
    (hm : req.method = .post) (hp : req.path = patchPath)
    (hparse : parsePatchRequest req.body = .ok patch_req) :
    (b64decode patch_req.sig = .error e →
        handler fs listing req = { status := 500, body := .text ("Error: " ++ e) }) ∧
    (∀ sigb data, b64decode patch_req.sig = .ok sigb → deserializeSig sigb = .error e →
        fs.lookup patch_req.file = some data →
        handler fs listing req = { status := 500, body := .text ("Error: " ++ e) }) := by
  rcases req with ⟨m, p, b⟩
  cases hm
  cases hp
  constructor
  · intro hb64
    simp [handler, router, route_patch, patchPath, hparse, hb64]
  · intro sigb data hb64 hdeser hread
    simp [handler, router, route_patch, make_patch, patchPath, hparse, hb64, hdeser, hread]

theorem sig_decode_error_isolated_witness :
    parsePatchRequest (encPatchRequest { file := [[97]], sig := [33] }) =
      .ok { file := [[97]], sig := [33] } ∧
    b64decode [33] = .error "DecodeError: invalid base64 character" ∧
    handler [] { files := [] }
        { method := .post, path := patchPath,
          body := encPatchRequest { file := [[97]], sig := [33] } } =
      { status := 500,
        body := .text ("Error: " ++ "DecodeError: invalid base64 character") } :=
  ⟨by decide, by decide,
    (sig_decode_error_isolated [] { files := [] }
        { method := .post, path := patchPath,
          body := encPatchRequest { file := [[97]], sig := [33] } }
        { file := [[97]], sig := [33] } "DecodeError: invalid base64 character"
        rfl rfl (by decide)).1 (by decide)⟩

/-! ## Signature wire-format round trip -/

theorem parseBlocks_ser (shs : Nat) (blocks : List BlockSum)
    (h : ∀ b ∈ blocks, b.weak < 2 ^ 32 ∧ b.strong.length = shs) :
    parseBlocks shs blocks.length (blocks.flatMap (fun b => encU32 b.weak ++ b.strong)) =
      .ok blocks := by
  induction blocks with
  | nil => simp [parseBlocks]
  | cons b bl ih =>
      obtain ⟨hw, hsl⟩ := h b (List.mem_cons_self b bl)
      have hrest := fun y hy => h y (List.mem_cons_of_mem b hy)
      rw [List.flatMap_cons, List.length_cons, List.append_assoc]
      have hshape :
          encU32 b.weak ++ (b.strong ++ bl.flatMap (fun x => encU32 x.weak ++ x.strong)) =
            b.weak % 256 :: b.weak / 256 % 256 :: b.weak / 256 ^ 2 % 256 ::
              b.weak / 256 ^ 3 % 256 ::
              (b.strong ++ bl.flatMap (fun x => encU32 x.weak ++ x.strong)) := rfl
      rw [hshape, parseBlocks]
      rw [if_pos (show shs ≤ _ by simp [hsl])]
      rw [List.drop_left' hsl, List.take_left' hsl, ih hrest]
      simp only [decU32_digits b.weak hw]

theorem buildSignature_blocks_length (A : List Nat) (bs shs : Nat) :
    (buildSignature A bs shs).blocks.length = numBlocks A.length bs := by
  simp [buildSignature]

theorem buildSignature_blocks_wf (A : List Nat) (bs shs : Nat) :
    ∀ b ∈ (buildSignature A bs shs).blocks, b.weak < 2 ^ 32 ∧ b.strong.length = shs := by
  intro b hb
  simp only [buildSignature, List.mem_map, List.mem_range] at hb
  obtain ⟨i, _, rfl⟩ := hb
  exact ⟨weakHash_lt _, strongHash_length _ _⟩

/-- Deserializing a serialized signature recovers it exactly, provided the
parameters fit the fixed-width header (block size, strong-hash size within
the digest length, and block count below `2 ^ 32`). -/
theorem deserializeSig_serializeSig (s : Signature)
    (hbs : 0 < s.block_size) (hbs32 : s.block_size < 2 ^ 32)
    (hshs : 0 < s.crypto_hash_size) (hshs32 : s.crypto_hash_size ≤ digestLength)
    (hcount : s.blocks.length < 2 ^ 32)
    (hwf : ∀ b ∈ s.blocks, b.weak < 2 ^ 32 ∧ b.strong.length = s.crypto_hash_size) :
    deserializeSig (serializeSig s) = .ok s := by
  rcases s with ⟨bs, shs, blocks⟩
  simp only at hbs hbs32 hshs hshs32 hcount hwf
  have hshape :
      serializeSig { block_size := bs, crypto_hash_size := shs, blocks := blocks } =
        bs % 256 :: bs / 256 % 256 :: bs / 256 ^ 2 % 256 :: bs / 256 ^ 3 % 256 ::
          shs % 256 :: shs / 256 % 256 :: shs / 256 ^ 2 % 256 :: shs / 256 ^ 3 % 256 ::
          blocks.length % 256 :: blocks.length / 256 % 256 ::
          blocks.length / 256 ^ 2 % 256 :: blocks.length / 256 ^ 3 % 256 ::
          blocks.flatMap (fun b => encU32 b.weak ++ b.strong) := rfl
  rw [hshape, deserializeSig]
  have hshs32' : shs < 2 ^ 32 :=
    lt_of_le_of_lt hshs32 (by norm_num [digestLength])
  simp only [decU32_digits bs hbs32, decU32_digits shs hshs32',
    decU32_digits blocks.length hcount]
  rw [if_pos ⟨hbs, hshs, hshs32⟩, parseBlocks_ser shs blocks hwf]

/-! ## C9: default parameters travel with the signature -/

/-- C9: every client signature is built with `block_size = 4096` and
`crypto_hash_size = 8`, and both parameters are recovered by deserializing
the serialized signature alone — the encoding is self-describing, the
server needs no out-of-band configuration. -/
theorem make_signature_defaults (data : List Nat) (hlen : data.length < 2 ^ 32) :
    make_signature data = serializeSig (buildSignature data 4096 8) ∧
    (buildSignature data 4096 8).block_size = 4096 ∧
    (buildSignature data 4096 8).crypto_hash_size = 8 ∧
    deserializeSig (make_signature data) = .ok (buildSignature data 4096 8) := by
  refine ⟨rfl, rfl, rfl, ?_⟩
  apply deserializeSig_serializeSig
  · norm_num [buildSignature]
  · norm_num [buildSignature]
  · norm_num [buildSignature]
  · norm_num [buildSignature, digestLength]
  · rw [buildSignature_blocks_length]
    exact lt_of_le_of_lt (numBlocks_le _ _ (by norm_num)) hlen
  · exact buildSignature_blocks_wf data 4096 8

theorem make_signature_defaults_witness :
    ([1, 2, 3] : List Nat).length < 2 ^ 32 ∧
    deserializeSig (make_signature [1, 2, 3]) = .ok (buildSignature [1, 2, 3] 4096 8) :=
  ⟨by norm_num, (make_signature_defaults [1, 2, 3] (by norm_num)).2.2.2⟩

/-! ## C1: the round trip -/

theorem applyPatch_flushPending (A pending : List Nat) :
    applyPatch A (flushPending pending) = .ok pending := by
  cases pending with
  | nil => simp [flushPending, applyPatch]
  | cons a l => simp [flushPending, applyPatch]

theorem applyPatch_append (A : List Nat) (xs ys : List Instruction) :
    applyPatch A (xs ++ ys) =
      match applyPatch A xs with
      | .ok a =>
          (match applyPatch A ys with
           | .ok b => .ok (a ++ b)
           | .error e => .error e)
      | .error e => .error e := by
  induction xs with
  | nil =>
      simp only [List.nil_append, applyPatch]
      cases applyPatch A ys <;> simp
  | cons x xs ih =>
      cases x with
      | copy off len =>
          simp only [List.cons_append, applyPatch, List.append_eq]
          by_cases hb : off + len ≤ A.length
          · rw [if_pos hb, if_pos hb, ih]
            cases applyPatch A xs <;> cases applyPatch A ys <;> simp [List.append_assoc]
          · rw [if_neg hb, if_neg hb]
      | insert bytes =>
          simp only [List.cons_append, applyPatch, List.append_eq]
          rw [ih]
          cases applyPatch A xs <;> cases applyPatch A ys <;> simp [List.append_assoc]

theorem findMatchAux_some (shs : Nat) (w : List Nat) :
    ∀ (bl : List BlockSum) (j i : Nat), findMatchAux shs w bl j = some i →
      ∃ k, ∃ hk : k < bl.length, i = j + k ∧
        bl[k].weak = weakHash w ∧ bl[k].strong = strongHash shs w := by
  intro bl
  induction bl with
  | nil => intro j i h; simp [findMatchAux] at h
  | cons b bl ih =>
      intro j i h
      rw [findMatchAux] at h
      by_cases hc : b.weak = weakHash w ∧ b.strong = strongHash shs w
      · rw [if_pos hc] at h
        injection h with h2
        refine ⟨0, by simp, by omega, by simpa using hc.1, by simpa using hc.2⟩
      · rw [if_neg hc] at h
        obtain ⟨k, hk, hik, hw2, hs2⟩ := ih (j + 1) i h
        exact ⟨k + 1, by simpa using hk, by omega, by simpa using hw2, by simpa using hs2⟩

theorem buildSignature_blocks_get (A : List Nat) (bs shs i : Nat)
    (h : i < (buildSignature A bs shs).blocks.length) :
    (buildSignature A bs shs).blocks[i] =
      { weak := weakHash (blockOf A bs i), strong := strongHash shs (blockOf A bs i) } := by
  simp [buildSignature]

theorem lt_numBlocks_iff (n bs i : Nat) (hbs : 0 < bs) :
    i < numBlocks n bs ↔ i * bs < n := by
  unfold numBlocks
  rw [Nat.lt_iff_add_one_le, Nat.le_div_iff_mul_le hbs, Nat.add_mul, Nat.one_mul]
  omega

/-- Invariant of the sliding scan: from offset `p` with pending literals
`pending`, replaying the emitted instructions against `A` reconstructs
`pending ++ B.drop p`, provided no checksum collision occurs and the fuel
covers the remaining input. -/
theorem roundtrip_go (A B : List Nat) (bs shs : Nat) (hbs : 0 < bs)
    (hnc : NoCollision A B bs shs) :
    ∀ (fuel p : Nat) (pending : List Nat), B.length - p ≤ fuel →
      applyPatch A (deltaGo (buildSignature A bs shs) B fuel p pending) =
        .ok (pending ++ B.drop p) := by
  intro fuel
  induction fuel with
  | zero =>
      intro p pending hf
      have hp : B.length ≤ p := by omega
      rw [deltaGo, applyPatch_flushPending, List.drop_eq_nil_of_le hp, List.append_nil]
  | succ fuel ih =>
      intro p pending hf
      rw [deltaGo]
      by_cases hp : p < B.length
      · rw [dif_pos hp]
        cases hm : findMatchAux (buildSignature A bs shs).crypto_hash_size
            ((B.drop p).take (min (buildSignature A bs shs).block_size (B.length - p)))
            (buildSignature A bs shs).blocks 0 with
        | none =>
            show applyPatch A
                (deltaGo (buildSignature A bs shs) B fuel (p + 1) (pending ++ [B.get ⟨p, hp⟩])) =
              .ok (pending ++ B.drop p)
            rw [ih (p + 1) (pending ++ [B.get ⟨p, hp⟩]) (by omega)]
            rw [List.append_assoc, List.singleton_append, List.get_eq_getElem,
              ← List.drop_eq_getElem_cons hp]
        | some i =>
            obtain ⟨k, hk, hik, hweak, hstrong⟩ :=
              findMatchAux_some (buildSignature A bs shs).crypto_hash_size _ _ 0 i hm
            have hik0 : i = k := by omega
            subst hik0
            show applyPatch A
                (flushPending pending ++
                  .copy (i * (buildSignature A bs shs).block_size)
                      (min (buildSignature A bs shs).block_size (B.length - p)) ::
                    deltaGo (buildSignature A bs shs) B fuel
                      (p + min (buildSignature A bs shs).block_size (B.length - p)) []) =
              .ok (pending ++ B.drop p)
            have hsigbs : (buildSignature A bs shs).block_size = bs := rfl
            have hsigshs : (buildSignature A bs shs).crypto_hash_size = shs := rfl
            rw [hsigbs]
            have hi : i < numBlocks A.length bs := by
              rw [← buildSignature_blocks_length A bs shs]; exact hk
            have hget := buildSignature_blocks_get A bs shs i hk
            rw [hget] at hweak hstrong
            rw [hsigbs] at hweak hstrong
            rw [hsigshs] at hstrong
            have hw : (B.drop p).take (min bs (B.length - p)) = blockOf A bs i :=
              hnc p hp i hi hweak.symm hstrong.symm
            have hikbs : i * bs < A.length := (lt_numBlocks_iff A.length bs i hbs).mp hi
            have hwlen : ((B.drop p).take (min bs (B.length - p))).length =
                min bs (B.length - p) := by
              simp only [List.length_take, List.length_drop]
              omega
            have hblen : (blockOf A bs i).length = min bs (A.length - i * bs) := by
              simp [blockOf]
            have hLA : min bs (B.length - p) = min bs (A.length - i * bs) := by
              rw [← hwlen, hw, hblen]
            have hbound : i * bs + min bs (B.length - p) ≤ A.length := by
              omega
            have hslice : (A.drop (i * bs)).take (min bs (B.length - p)) = blockOf A bs i := by
              unfold blockOf
              rw [List.take_eq_take]
              simp only [List.length_drop]
              omega
            rw [applyPatch_append, applyPatch_flushPending]
            show (match applyPatch A
                (Instruction.copy (i * bs) (min bs (B.length - p)) ::
                  deltaGo (buildSignature A bs shs) B fuel
                    (p + min bs (B.length - p)) []) with
              | .ok b => Except.ok (pending ++ b)
              | .error e => Except.error e) = .ok (pending ++ B.drop p)
            simp only [applyPatch]
            rw [if_pos hbound, ih (p + min bs (B.length - p)) [] (by omega)]
            simp only [List.nil_append]
            rw [hslice, ← hw]
            have hdrop : B.drop (p + min bs (B.length - p)) =
                (B.drop p).drop (min bs (B.length - p)) := by
              rw [List.drop_drop]
            rw [hdrop, List.take_append_drop]
      · rw [dif_neg hp, applyPatch_flushPending]
        have hple : B.length ≤ p := by omega
        rw [List.drop_eq_nil_of_le hple, List.append_nil]

/-- C1: the round trip.  For any buffers `A`, `B` and valid parameters
(`0 < bs` fitting the header, `1 ≤ shs ≤ digestLength`), the signature of
`A` deserializes back exactly, and applying the delta of `B` against the
(indexed) signature onto `A` reconstructs `B` byte-for-byte — under the
`NoCollision` hypothesis, which the truncated checksums satisfy with
overwhelming probability and which exact reconstruction requires.  At
`bs = 4096`, `shs = 8` the serialized signature is precisely
`make_signature A`, giving the program's
`apply(data, diff(index(deserialize(make_signature(data))), target)) =
target` path. -/
theorem patch_roundtrip (A B : List Nat) (bs shs : Nat)
    (hbs : 0 < bs) (hbs32 : bs < 2 ^ 32) (hshs : 0 < shs) (hshs32 : shs ≤ digestLength)
    (hA : A.length < 2 ^ 32) (hnc : NoCollision A B bs shs) :
    deserializeSig (serializeSig (buildSignature A bs shs)) = .ok (buildSignature A bs shs) ∧
    applyPatch A (computeDelta (index (buildSignature A bs shs)) B) = .ok B := by
  constructor
  · apply deserializeSig_serializeSig
    · exact hbs
    · exact hbs32
    · exact hshs
    · exact hshs32
    · rw [buildSignature_blocks_length]
      exact lt_of_le_of_lt (numBlocks_le _ _ hbs) hA
    · exact buildSignature_blocks_wf A bs shs
  · unfold computeDelta index
    have h := roundtrip_go A B bs shs hbs hnc B.length 0 [] (by omega)
    simpa using h

theorem patch_roundtrip_witness :
    NoCollision [1, 2, 3] [1, 2, 9, 4] 4096 8 ∧
    deserializeSig (make_signature [1, 2, 3]) = .ok (buildSignature [1, 2, 3] 4096 8) ∧
    applyPatch [1, 2, 3] (computeDelta (index (buildSignature [1, 2, 3] 4096 8)) [1, 2, 9, 4]) =
      .ok [1, 2, 9, 4] :=
  ⟨by decide,
    (patch_roundtrip [1, 2, 3] [1, 2, 9, 4] 4096 8 (by norm_num) (by norm_num) (by norm_num)
        (by norm_num [digestLength]) (by norm_num) (by decide)).1,
    (patch_roundtrip [1, 2, 3] [1, 2, 9, 4] 4096 8 (by norm_num) (by norm_num) (by norm_num)
        (by norm_num [digestLength]) (by norm_num) (by decide)).2⟩

end Blocky
